import Mathlib

/-!
Shallow embedding of the hotel-room management registry (src/models.py and
src/app.py) together with proofs of the specified properties.

The Python program keeps two process-wide mutable values: `rooms : List[Room]`
and `booking_ids : set`.  We model them as a `RegState`.  Each Flask handler's
mutating POST branch becomes a pure function `RegState → args → RegState × Except RegError T`:
a failure branch in the Python code returns from the handler without assigning
to any global, which here is rendered as returning the incoming state unchanged
alongside the error.  The Python `set` is modelled as a duplicate-free `List Int`
used only through membership, `insert` and `filter`.

Numeric conventions: Python ints are `Int`; the float `payment_advance` is `Rat`
(all the arithmetic the program does on it is exact field arithmetic).
-/

namespace Hotel

/-- Decidable equality for `Except` results, so that concrete runs of the
operations can be checked by `decide`. -/
instance {ε α : Type} [DecidableEq ε] [DecidableEq α] : DecidableEq (Except ε α) := fun x y =>
  match x, y with
  | .ok a, .ok b =>
    match decEq a b with
    | isTrue h => isTrue (by rw [h])
    | isFalse h => isFalse fun hh => h (Except.ok.inj hh)
  | .error a, .error b =>
    match decEq a b with
    | isTrue h => isTrue (by rw [h])
    | isFalse h => isFalse fun hh => h (Except.error.inj hh)
  | .ok _, .error _ => isFalse fun hh => Except.noConfusion hh
  | .error _, .ok _ => isFalse fun hh => Except.noConfusion hh

/-- Python `str.upper()` on the (ASCII) strings this program handles:
uppercase every character. -/
def pyUpper (s : String) : String := ⟨s.data.map Char.toUpper⟩

/-- Python `str.lower()` on the (ASCII) strings this program handles:
lowercase every character. -/
def pyLower (s : String) : String := ⟨s.data.map Char.toLower⟩

/-- Python `str.strip()`: drop leading and trailing whitespace. -/
def pyStrip (s : String) : String :=
  ⟨((s.data.dropWhile Char.isWhitespace).reverse.dropWhile Char.isWhitespace).reverse⟩

/-- The `Customer` dataclass from src/models.py.  `booking_id` is `Int`: the UI path
parses it with `int(...)` and the claims under study concern integer ids. -/
structure Customer where
  name : String
  address : String
  phone : String
  from_date : String
  to_date : String
  payment_advance : Rat
  booking_id : Int
deriving DecidableEq

/-- The `Room` dataclass from src/models.py. `status`: 0 = available, 1 = reserved. -/
structure Room where
  room_number : Int
  ac : String
  comfort : String
  size : String
  rent : Int
  status : Int
  cust : Option Customer
deriving DecidableEq

/-- The two module-level globals of src/app.py: `rooms` and `booking_ids`. -/
structure RegState where
  rooms : List Room
  booking_ids : List Int
deriving DecidableEq

/-- Initial state of the process: both globals empty. -/
def initState : RegState := ⟨[], []⟩

/-- The error taxonomy of the spec.  `PyValueError` stands for an uncaught
Python `ValueError`/`TypeError` escaping a handler (an HTTP 500, not one of the
six registry errors). -/
inductive RegError where
  | DuplicateRoomError
  | InvalidAttributeError
  | RoomNotFoundError
  | RoomOccupiedError
  | RoomNotOccupiedError
  | DuplicateBookingIdError
  | PyValueError
deriving DecidableEq

/-- The advance-payment field of a check-in request: absent from the form/body,
or present with the result of `float(...)`-parsing it (`none` = unparseable). -/
inductive AdvanceInput where
  | absent
  | given (parsed : Option Rat)
deriving DecidableEq

/-- Models `float(request.form.get("advance", 0))` wrapped in `try/except ValueError`
(src/app.py lines 90–93): absent defaults to `float(0)`, unparseable to 0.0. -/
def uiAdvance : AdvanceInput → Rat
  | .absent => 0
  | .given (some q) => q
  | .given none => 0

/-- Models `float(data.get("payment_advance", 0))` with no `try` (src/app.py line 234):
absent defaults to `float(0)`, unparseable raises. -/
def apiAdvance : AdvanceInput → Except RegError Rat
  | .absent => .ok 0
  | .given (some q) => .ok q
  | .given none => .error .PyValueError

/-- Helper `find_room_index` from src/app.py lines 15–19: index of the first room with
the given number, `none` if absent. -/
def find_room_index : List Room → Int → Option Nat
  | [], _ => none
  | r :: rs, rno =>
    if r.room_number = rno then some 0
    else (find_room_index rs rno).map (· + 1)

/-- POST branch of `manage_rooms` (src/app.py lines 28–52), the UI add-room
path, with `room_number` and `rent` already `int(...)`-parsed.  The raw form
strings for ac/comfort/size are uppercased (`.upper()`) before validation.
Note the source validates only the three enum fields, not `rent`. -/
def manage_rooms_add (s : RegState) (rno : Int) (acRaw comfortRaw sizeRaw : String)
    (rent : Int) : RegState × Except RegError Unit :=
  if (find_room_index s.rooms rno).isSome then
    (s, .error .DuplicateRoomError)
  else
    let ac := pyUpper acRaw
    let comfort := pyUpper comfortRaw
    let size := pyUpper sizeRaw
    if (ac ≠ "A" ∧ ac ≠ "N") ∨ (comfort ≠ "S" ∧ comfort ≠ "N") ∨ (size ≠ "B" ∧ size ≠ "S") then
      (s, .error .InvalidAttributeError)
    else
      let room : Room :=
        { room_number := rno, ac := ac, comfort := comfort,
          size := size, rent := rent, status := 0, cust := none }
      ({ s with rooms := s.rooms ++ [room] }, .ok ())

/-- POST branch of `api_rooms` (src/app.py lines 177–193): the JSON add-room
path.  The source performs no validation of ac/comfort/size/rent at all; the
defaults "N"/"N"/"S"/0 of the absent fields are supplied by the caller here. -/
def api_rooms_add (s : RegState) (rno : Int) (ac comfort size : String)
    (rent : Int) : RegState × Except RegError Unit :=
  if (find_room_index s.rooms rno).isSome then
    (s, .error .DuplicateRoomError)
  else
    let room : Room :=
      { room_number := rno, ac := ac, comfort := comfort,
        size := size, rent := rent, status := 0, cust := none }
    ({ s with rooms := s.rooms ++ [room] }, .ok ())

/-- POST branch of `checkin` (src/app.py lines 58–109), the UI check-in path,
with `room_number` and `booking_id` already `int(...)`-parsed.  The five text
fields are stored stripped; the advance falls back to 0.0 on parse failure. -/
def checkin (s : RegState) (rno booking_id : Int)
    (name address phone from_date to_date : String) (advance : AdvanceInput) :
    RegState × Except RegError Unit :=
  match find_room_index s.rooms rno with
  | none => (s, .error .RoomNotFoundError)
  | some idx =>
    match s.rooms[idx]? with
    | none => (s, .error .RoomNotFoundError)
    | some room =>
      if room.status = 1 then (s, .error .RoomOccupiedError)
      else if booking_id ∈ s.booking_ids then (s, .error .DuplicateBookingIdError)
      else
        let cust : Customer :=
          { name := pyStrip name, address := pyStrip address, phone := pyStrip phone,
            from_date := pyStrip from_date, to_date := pyStrip to_date,
            payment_advance := uiAdvance advance, booking_id := booking_id }
        ({ rooms := s.rooms.set idx { room with cust := some cust, status := 1 },
           booking_ids := s.booking_ids.insert booking_id }, .ok ())

/-- Handler `api_checkin` (src/app.py lines 212–240): the JSON check-in path.  Text
fields are stored verbatim (no `.strip()`); `float(data.get("payment_advance",0))`
is evaluated while constructing the `Customer`, i.e. after all checks but before
any mutation, and an unparseable value raises out of the handler. -/
def api_checkin (s : RegState) (rno booking_id : Int)
    (name address phone from_date to_date : String) (advance : AdvanceInput) :
    RegState × Except RegError Unit :=
  match find_room_index s.rooms rno with
  | none => (s, .error .RoomNotFoundError)
  | some idx =>
    match s.rooms[idx]? with
    | none => (s, .error .RoomNotFoundError)
    | some room =>
      if room.status = 1 then (s, .error .RoomOccupiedError)
      else if booking_id ∈ s.booking_ids then (s, .error .DuplicateBookingIdError)
      else
        match apiAdvance advance with
        | .error e => (s, .error e)
        | .ok adv =>
          let cust : Customer :=
            { name := name, address := address, phone := phone,
              from_date := from_date, to_date := to_date,
              payment_advance := adv, booking_id := booking_id }
          ({ rooms := s.rooms.set idx { room with cust := some cust, status := 1 },
             booking_ids := s.booking_ids.insert booking_id }, .ok ())

/-- The `{room_number, bill, advance, payable}` record rendered by checkout. -/
structure BillResult where
  room_number : Int
  bill : Int
  advance : Rat
  payable : Rat
deriving DecidableEq

/-- Shared body of the two checkout handlers.  The source merges "room missing"
and "room not occupied" into one failure branch (`if idx is None or
rooms[idx].status == 0`).  The booking id is discarded only under the Python
truthiness guard `if room.cust and room.cust.booking_id:`, i.e. only when it is
nonzero. -/
def checkout_core (s : RegState) (rno days : Int) :
    RegState × Except RegError BillResult :=
  match find_room_index s.rooms rno with
  | none => (s, .error .RoomNotOccupiedError)
  | some idx =>
    match s.rooms[idx]? with
    | none => (s, .error .RoomNotOccupiedError)
    | some room =>
      if room.status = 0 then (s, .error .RoomNotOccupiedError)
      else
        let bill := days * room.rent
        let advance : Rat := match room.cust with
          | some c => c.payment_advance
          | none => 0
        let payable : Rat := (bill : Rat) - advance
        let booking_ids' := match room.cust with
          | some c => if c.booking_id ≠ 0 then s.booking_ids.filter (fun b => b ≠ c.booking_id)
                      else s.booking_ids
          | none => s.booking_ids
        ({ rooms := s.rooms.set idx { room with cust := none, status := 0 },
           booking_ids := booking_ids' },
         .ok { room_number := rno, bill := bill, advance := advance, payable := payable })

/-- POST branch of `checkout` (src/app.py lines 115–149), the UI path, with
`room_number` and `days` already `int(...)`-parsed. -/
def checkout (s : RegState) (rno days : Int) : RegState × Except RegError BillResult :=
  checkout_core s rno days

/-- Handler `api_checkout` (src/app.py lines 243–257): the JSON path, computationally
identical to the UI checkout. -/
def api_checkout (s : RegState) (rno days : Int) : RegState × Except RegError BillResult :=
  checkout_core s rno days

/-- Handler `api_search_customer` (src/app.py lines 260–267): strip and lowercase the
query; if nonempty, collect occupied rooms whose customer's lowercased name
equals it. -/
def api_search_customer (s : RegState) (nameQuery : String) : List (Int × Customer) :=
  let name := pyLower (pyStrip nameQuery)
  if name = "" then []
  else s.rooms.filterMap fun r =>
    if r.status = 1 then
      match r.cust with
      | some c => if pyLower c.name = name then some (r.room_number, c) else none
      | none => none
    else none

/-- One mutating HTTP request, on either the UI or the JSON path. -/
inductive Step : RegState → RegState → Prop
  | ui_add (s : RegState) (rno : Int) (ac comfort size : String) (rent : Int) :
      Step s (manage_rooms_add s rno ac comfort size rent).1
  | api_add (s : RegState) (rno : Int) (ac comfort size : String) (rent : Int) :
      Step s (api_rooms_add s rno ac comfort size rent).1
  | ui_checkin (s : RegState) (rno booking_id : Int)
      (name address phone from_date to_date : String) (advance : AdvanceInput) :
      Step s (checkin s rno booking_id name address phone from_date to_date advance).1
  | api_checkin (s : RegState) (rno booking_id : Int)
      (name address phone from_date to_date : String) (advance : AdvanceInput) :
      Step s (api_checkin s rno booking_id name address phone from_date to_date advance).1
  | ui_checkout (s : RegState) (rno days : Int) :
      Step s (checkout s rno days).1
  | api_checkout (s : RegState) (rno days : Int) :
      Step s (api_checkout s rno days).1

/-- States reachable from process start by any sequence of requests. -/
inductive Reachable : RegState → Prop
  | init : Reachable initState
  | step {s s' : RegState} : Reachable s → Step s s' → Reachable s'

/-- The booking ids of currently-occupied rooms' customers, in room order. -/
def occupiedIds (rooms : List Room) : List Int :=
  rooms.filterMap fun r => if r.status = 1 then r.cust.map Customer.booking_id else none

/-! ### Basic lemmas about `find_room_index` and list surgery -/

theorem find_room_index_some {rooms : List Room} {rno : Int} {idx : Nat}
    (h : find_room_index rooms rno = some idx) :
    ∃ room, rooms[idx]? = some room ∧ room.room_number = rno := by
  induction rooms generalizing idx with
  | nil => simp [find_room_index] at h
  | cons r rs ih =>
    by_cases hr : r.room_number = rno
    · simp only [find_room_index, if_pos hr, Option.some.injEq] at h
      subst h
      exact ⟨r, by simp, hr⟩
    · simp only [find_room_index, if_neg hr, Option.map_eq_some'] at h
      obtain ⟨j, hj, rfl⟩ := h
      obtain ⟨room, hget, hnum⟩ := ih hj
      exact ⟨room, by simpa using hget, hnum⟩

theorem find_room_index_none {rooms : List Room} {rno : Int}
    (h : find_room_index rooms rno = none) : ∀ r ∈ rooms, r.room_number ≠ rno := by
  induction rooms with
  | nil => simp
  | cons r rs ih =>
    by_cases hr : r.room_number = rno
    · simp [find_room_index, if_pos hr] at h
    · simp only [find_room_index, if_neg hr, Option.map_eq_none'] at h
      intro x hx
      rcases List.mem_cons.mp hx with rfl | hx
      · exact hr
      · exact ih h x hx

theorem find_room_index_isSome_iff {rooms : List Room} {rno : Int} :
    (find_room_index rooms rno).isSome ↔ ∃ r ∈ rooms, r.room_number = rno := by
  constructor
  · intro h
    obtain ⟨idx, hidx⟩ := Option.isSome_iff_exists.mp h
    obtain ⟨room, hget, hnum⟩ := find_room_index_some hidx
    exact ⟨room, List.getElem?_mem hget, hnum⟩
  · intro hex
    by_contra hnone
    rw [Option.not_isSome_iff_eq_none] at hnone
    obtain ⟨r, hr, hnum⟩ := hex
    exact find_room_index_none hnone r hr hnum

/-- Replacing the found room with one carrying the same room number leaves
`find_room_index` unchanged. -/
theorem find_room_index_set {rooms : List Room} {rno : Int} {idx : Nat} {r' : Room}
    (h : find_room_index rooms rno = some idx) (hnum : r'.room_number = rno) :
    find_room_index (rooms.set idx r') rno = some idx := by
  induction rooms generalizing idx with
  | nil => simp [find_room_index] at h
  | cons r rs ih =>
    by_cases hr : r.room_number = rno
    · simp only [find_room_index, if_pos hr, Option.some.injEq] at h
      subst h
      simp [find_room_index, hnum]
    · simp only [find_room_index, if_neg hr, Option.map_eq_some'] at h
      obtain ⟨j, hj, rfl⟩ := h
      simp [find_room_index, if_neg hr, ih hj]

/-- A list splits around any index that holds a value. -/
theorem getElem?_decomp {α : Type} {l : List α} {idx : Nat} {a : α}
    (h : l[idx]? = some a) :
    l = l.take idx ++ a :: l.drop (idx + 1) := by
  have hlt : idx < l.length := by
    by_contra hge
    rw [List.getElem?_eq_none (Nat.le_of_not_lt hge)] at h
    exact Option.noConfusion h
  obtain ⟨h', hget⟩ := List.getElem?_eq_some.mp h
  conv_lhs => rw [← List.take_append_drop idx l]
  rw [List.drop_eq_getElem_cons hlt, hget]

/-- Lemma: `List.set` splits the same way. -/
theorem set_decomp {α : Type} {l : List α} {idx : Nat} {a : α}
    (h : l[idx]? = some a) (a' : α) :
    l.set idx a' = l.take idx ++ a' :: l.drop (idx + 1) := by
  have hlt : idx < l.length := by
    by_contra hge
    rw [List.getElem?_eq_none (Nat.le_of_not_lt hge)] at h
    exact Option.noConfusion h
  exact List.set_eq_take_cons_drop a' hlt

/-- The inductive invariant of the registry. -/
structure Inv (s : RegState) : Prop where
  status_cases : ∀ r ∈ s.rooms, r.status = 0 ∨ r.status = 1
  occ_iff : ∀ r ∈ s.rooms, (r.cust.isSome ↔ r.status = 1)
  nums_nodup : (s.rooms.map Room.room_number).Nodup
  ids_nodup : (occupiedIds s.rooms).Nodup
  occ_sub : ∀ b ∈ occupiedIds s.rooms, b ∈ s.booking_ids
  inuse_sub : ∀ b ∈ s.booking_ids, b = 0 ∨ b ∈ occupiedIds s.rooms

/-! ### Preservation of the invariant -/

theorem occupiedIds_append (l₁ l₂ : List Room) :
    occupiedIds (l₁ ++ l₂) = occupiedIds l₁ ++ occupiedIds l₂ := by
  simp [occupiedIds, List.filterMap_append]

theorem Inv.add_room {s : RegState} (hInv : Inv s) (room : Room)
    (hfresh : ∀ r ∈ s.rooms, r.room_number ≠ room.room_number)
    (hst : room.status = 0) (hcust : room.cust = none) :
    Inv { s with rooms := s.rooms ++ [room] } := by
  have hocc : occupiedIds (s.rooms ++ [room]) = occupiedIds s.rooms := by
    simp [occupiedIds, List.filterMap_append, hst]
  constructor
  · intro r hr
    rcases List.mem_append.mp hr with h | h
    · exact hInv.status_cases r h
    · simp only [List.mem_singleton] at h
      subst h
      exact Or.inl hst
  · intro r hr
    rcases List.mem_append.mp hr with h | h
    · exact hInv.occ_iff r h
    · simp only [List.mem_singleton] at h
      subst h
      simp [hcust, hst]
  · rw [List.map_append]
    refine List.Nodup.append hInv.nums_nodup (by simp) ?_
    intro x hx hx'
    simp only [List.map_cons, List.map_nil, List.mem_singleton] at hx'
    obtain ⟨r, hr, hnum⟩ := List.mem_map.mp hx
    exact hfresh r hr (hnum.trans hx')
  · rw [hocc]
    exact hInv.ids_nodup
  · intro b hb
    rw [hocc] at hb
    exact hInv.occ_sub b hb
  · intro b hb
    rcases hInv.inuse_sub b hb with h | h
    · exact Or.inl h
    · rw [hocc]
      exact Or.inr h

theorem Inv.do_checkin {s : RegState} (hInv : Inv s) {idx : Nat} {room : Room} (c : Customer)
    (hget : s.rooms[idx]? = some room) (hst : room.status ≠ 1)
    (hbid : c.booking_id ∉ s.booking_ids) :
    Inv { rooms := s.rooms.set idx { room with cust := some c, status := 1 },
          booking_ids := s.booking_ids.insert c.booking_id } := by
  have hdec : s.rooms = s.rooms.take idx ++ room :: s.rooms.drop (idx + 1) :=
    getElem?_decomp hget
  have hsetd : s.rooms.set idx { room with cust := some c, status := 1 }
      = s.rooms.take idx ++ { room with cust := some c, status := 1 } :: s.rooms.drop (idx + 1) :=
    set_decomp hget _
  have hoccOld : occupiedIds s.rooms
      = occupiedIds (s.rooms.take idx) ++ occupiedIds (s.rooms.drop (idx + 1)) := by
    conv_lhs => rw [hdec]
    simp [occupiedIds, List.filterMap_append, List.filterMap_cons, hst]
  have hoccNew : occupiedIds (s.rooms.set idx { room with cust := some c, status := 1 })
      = occupiedIds (s.rooms.take idx) ++ c.booking_id :: occupiedIds (s.rooms.drop (idx + 1)) := by
    rw [hsetd]
    simp [occupiedIds, List.filterMap_append, List.filterMap_cons]
  have hmemT : ∀ r, r ∈ s.rooms.take idx → r ∈ s.rooms := fun r h => List.mem_of_mem_take h
  have hmemD : ∀ r, r ∈ s.rooms.drop (idx + 1) → r ∈ s.rooms := fun r h => List.mem_of_mem_drop h
  have hbid_nocc : c.booking_id ∉ occupiedIds (s.rooms.take idx) ++ occupiedIds (s.rooms.drop (idx + 1)) := by
    intro hmem
    rw [← hoccOld] at hmem
    exact hbid (hInv.occ_sub _ hmem)
  constructor
  · intro r hr
    rw [hsetd] at hr
    rcases List.mem_append.mp hr with h | h
    · exact hInv.status_cases r (hmemT r h)
    · rcases List.mem_cons.mp h with rfl | h
      · exact Or.inr rfl
      · exact hInv.status_cases r (hmemD r h)
  · intro r hr
    rw [hsetd] at hr
    rcases List.mem_append.mp hr with h | h
    · exact hInv.occ_iff r (hmemT r h)
    · rcases List.mem_cons.mp h with rfl | h
      · simp
      · exact hInv.occ_iff r (hmemD r h)
  · have hmaps : (s.rooms.set idx { room with cust := some c, status := 1 }).map Room.room_number
        = s.rooms.map Room.room_number := by
      conv_rhs => rw [hdec]
      rw [hsetd]
      simp [List.map_append]
    rw [hmaps]
    exact hInv.nums_nodup
  · rw [hoccNew, List.nodup_middle]
    refine List.nodup_cons.mpr ⟨hbid_nocc, ?_⟩
    rw [← hoccOld]
    exact hInv.ids_nodup
  · intro b hb
    rw [hoccNew] at hb
    rcases List.mem_append.mp hb with h | h
    · exact List.mem_insert_of_mem (hInv.occ_sub b (hoccOld ▸ List.mem_append_left _ h))
    · rcases List.mem_cons.mp h with rfl | h
      · exact List.mem_insert_self _ _
      · exact List.mem_insert_of_mem (hInv.occ_sub b (hoccOld ▸ List.mem_append_right _ h))
  · intro b hb
    rw [hoccNew]
    rcases List.mem_insert_iff.mp hb with rfl | hb
    · exact Or.inr (List.mem_append_right _ (List.mem_cons_self _ _))
    · rcases hInv.inuse_sub b hb with h | h
      · exact Or.inl h
      · rw [hoccOld] at h
        rcases List.mem_append.mp h with h | h
        · exact Or.inr (List.mem_append_left _ h)
        · exact Or.inr (List.mem_append_right _ (List.mem_cons_of_mem _ h))

theorem Inv.do_checkout {s : RegState} (hInv : Inv s) {idx : Nat} {room : Room} {c : Customer}
    (hget : s.rooms[idx]? = some room) (hcust : room.cust = some c) (hst : room.status = 1) :
    Inv { rooms := s.rooms.set idx { room with cust := none, status := 0 },
          booking_ids := if c.booking_id ≠ 0 then
              s.booking_ids.filter (fun b => b ≠ c.booking_id)
            else s.booking_ids } := by
  have hdec : s.rooms = s.rooms.take idx ++ room :: s.rooms.drop (idx + 1) :=
    getElem?_decomp hget
  have hsetd : s.rooms.set idx { room with cust := none, status := 0 }
      = s.rooms.take idx ++ { room with cust := none, status := 0 } :: s.rooms.drop (idx + 1) :=
    set_decomp hget _
  have hoccOld : occupiedIds s.rooms
      = occupiedIds (s.rooms.take idx) ++ c.booking_id :: occupiedIds (s.rooms.drop (idx + 1)) := by
    conv_lhs => rw [hdec]
    simp [occupiedIds, List.filterMap_append, List.filterMap_cons, hst, hcust]
  have hoccNew : occupiedIds (s.rooms.set idx { room with cust := none, status := 0 })
      = occupiedIds (s.rooms.take idx) ++ occupiedIds (s.rooms.drop (idx + 1)) := by
    rw [hsetd]
    simp [occupiedIds, List.filterMap_append, List.filterMap_cons]
  have hmemT : ∀ r, r ∈ s.rooms.take idx → r ∈ s.rooms := fun r h => List.mem_of_mem_take h
  have hmemD : ∀ r, r ∈ s.rooms.drop (idx + 1) → r ∈ s.rooms := fun r h => List.mem_of_mem_drop h
  have hnodupOld := hInv.ids_nodup
  rw [hoccOld, List.nodup_middle, List.nodup_cons] at hnodupOld
  obtain ⟨hbid_nocc, hnodupRest⟩ := hnodupOld
  constructor
  · intro r hr
    rw [hsetd] at hr
    rcases List.mem_append.mp hr with h | h
    · exact hInv.status_cases r (hmemT r h)
    · rcases List.mem_cons.mp h with rfl | h
      · exact Or.inl rfl
      · exact hInv.status_cases r (hmemD r h)
  · intro r hr
    rw [hsetd] at hr
    rcases List.mem_append.mp hr with h | h
    · exact hInv.occ_iff r (hmemT r h)
    · rcases List.mem_cons.mp h with rfl | h
      · simp
      · exact hInv.occ_iff r (hmemD r h)
  · have hmaps : (s.rooms.set idx { room with cust := none, status := 0 }).map Room.room_number
        = s.rooms.map Room.room_number := by
      conv_rhs => rw [hdec]
      rw [hsetd]
      simp [List.map_append]
    rw [hmaps]
    exact hInv.nums_nodup
  · rw [hoccNew]
    exact hnodupRest
  · intro b hb
    rw [hoccNew] at hb
    have hbOld : b ∈ occupiedIds s.rooms := by
      rw [hoccOld]
      rcases List.mem_append.mp hb with h | h
      · exact List.mem_append_left _ h
      · exact List.mem_append_right _ (List.mem_cons_of_mem _ h)
    have hbne : b ≠ c.booking_id := fun hEq => hbid_nocc (hEq ▸ hb)
    have hbIds := hInv.occ_sub b hbOld
    by_cases h0 : c.booking_id ≠ 0
    · rw [if_pos h0]
      simp only [List.mem_filter, decide_eq_true_eq]
      exact ⟨hbIds, hbne⟩
    · rw [if_neg h0]
      exact hbIds
  · intro b hb
    by_cases h0 : c.booking_id ≠ 0
    · rw [if_pos h0] at hb
      simp only [List.mem_filter, decide_eq_true_eq] at hb
      obtain ⟨hbIds, hbne⟩ := hb
      rcases hInv.inuse_sub b hbIds with h | h
      · exact Or.inl h
      · rw [hoccOld] at h
        rw [hoccNew]
        rcases List.mem_append.mp h with h | h
        · exact Or.inr (List.mem_append_left _ h)
        · rcases List.mem_cons.mp h with rfl | h
          · exact absurd rfl hbne
          · exact Or.inr (List.mem_append_right _ h)
    · rw [if_neg h0] at hb
      push_neg at h0
      rcases hInv.inuse_sub b hb with h | h
      · exact Or.inl h
      · rw [hoccOld] at h
        rw [hoccNew]
        rcases List.mem_append.mp h with h | h
        · exact Or.inr (List.mem_append_left _ h)
        · rcases List.mem_cons.mp h with rfl | h
          · exact Or.inl h0
          · exact Or.inr (List.mem_append_right _ h)

theorem inv_manage_rooms_add (s : RegState) (rno : Int) (a c z : String) (rent : Int)
    (hInv : Inv s) : Inv (manage_rooms_add s rno a c z rent).1 := by
  simp only [manage_rooms_add]
  split
  · exact hInv
  · rename_i hdup
    split
    · exact hInv
    · refine hInv.add_room _ ?_ rfl rfl
      intro r hr
      exact find_room_index_none (Option.not_isSome_iff_eq_none.mp hdup) r hr

theorem inv_api_rooms_add (s : RegState) (rno : Int) (a c z : String) (rent : Int)
    (hInv : Inv s) : Inv (api_rooms_add s rno a c z rent).1 := by
  simp only [api_rooms_add]
  split
  · exact hInv
  · rename_i hdup
    refine hInv.add_room _ ?_ rfl rfl
    intro r hr
    exact find_room_index_none (Option.not_isSome_iff_eq_none.mp hdup) r hr

theorem inv_checkin (s : RegState) (rno bid : Int) (n a p f t : String) (adv : AdvanceInput)
    (hInv : Inv s) : Inv (checkin s rno bid n a p f t adv).1 := by
  simp only [checkin]
  split
  · exact hInv
  · rename_i idx hfind
    split
    · exact hInv
    · rename_i room hget
      split
      · exact hInv
      · split
        · exact hInv
        · rename_i hst hbid
          exact hInv.do_checkin _ hget hst hbid

theorem inv_api_checkin (s : RegState) (rno bid : Int) (n a p f t : String) (adv : AdvanceInput)
    (hInv : Inv s) : Inv (api_checkin s rno bid n a p f t adv).1 := by
  simp only [api_checkin]
  split
  · exact hInv
  · rename_i idx hfind
    split
    · exact hInv
    · rename_i room hget
      split
      · exact hInv
      · split
        · exact hInv
        · rename_i hst hbid
          split
          · exact hInv
          · exact hInv.do_checkin _ hget hst hbid

theorem inv_checkout_core (s : RegState) (rno days : Int)
    (hInv : Inv s) : Inv (checkout_core s rno days).1 := by
  simp only [checkout_core]
  split
  · exact hInv
  · rename_i idx hfind
    split
    · exact hInv
    · rename_i room hget
      split
      · exact hInv
      · rename_i hst0
        have hmem : room ∈ s.rooms := List.getElem?_mem hget
        have hst1 : room.status = 1 := by
          rcases hInv.status_cases room hmem with h | h
          · exact absurd h hst0
          · exact h
        have hsome : room.cust.isSome := (hInv.occ_iff room hmem).mpr hst1
        obtain ⟨c, hcust⟩ := Option.isSome_iff_exists.mp hsome
        have := hInv.do_checkout hget hcust hst1
        simpa [hcust] using this

theorem inv_step {s s' : RegState} (hInv : Inv s) (h : Step s s') : Inv s' := by
  cases h with
  | ui_add rno a c z rent => exact inv_manage_rooms_add s rno a c z rent hInv
  | api_add rno a c z rent => exact inv_api_rooms_add s rno a c z rent hInv
  | ui_checkin rno bid n a p f t adv => exact inv_checkin s rno bid n a p f t adv hInv
  | api_checkin rno bid n a p f t adv => exact inv_api_checkin s rno bid n a p f t adv hInv
  | ui_checkout rno days => exact inv_checkout_core s rno days hInv
  | api_checkout rno days => exact inv_checkout_core s rno days hInv

theorem inv_of_reachable {s : RegState} (h : Reachable s) : Inv s := by
  induction h with
  | init => exact ⟨by simp [initState], by simp [initState], by simp [initState],
      by simp [initState, occupiedIds], by simp [initState, occupiedIds],
      by simp [initState]⟩
  | step _ hstep ih => exact inv_step ih hstep

/-! ### Concrete example runs -/

/-- Example run: add room 101 (ac N, comfort N, size S, rent 500) to the empty
registry, as in the spec's round-trip property. -/
def exS1 : RegState := (manage_rooms_add initState 101 "N" "N" "S" 500).1

/-- The room inserted by `exS1`. -/
def exRoom1 : Room :=
  { room_number := 101, ac := "N", comfort := "N", size := "S", rent := 500,
    status := 0, cust := none }

/-- Next, check booking id 1 into room 101 with an advance of 200. -/
def exS2 : RegState := (checkin exS1 101 1 "Alice" "addr" "ph" "d1" "d2" (.given (some 200))).1

/-- The customer stored by the check-in of `exS2`. -/
def exCust : Customer :=
  { name := "Alice", address := "addr", phone := "ph", from_date := "d1", to_date := "d2",
    payment_advance := 200, booking_id := 1 }

/-- Room 101 as occupied in `exS2`. -/
def exRoom2 : Room := { exRoom1 with status := 1, cust := some exCust }

/-- Finally, check room 101 out after 3 days. -/
def exS3 : RegState := (checkout exS2 101 3).1

theorem exS1_reachable : Reachable exS1 :=
  Reachable.step Reachable.init (Step.ui_add initState 101 "N" "N" "S" 500)

theorem exS2_reachable : Reachable exS2 :=
  Reachable.step exS1_reachable
    (Step.ui_checkin exS1 101 1 "Alice" "addr" "ph" "d1" "d2" (.given (some 200)))

theorem exS3_reachable : Reachable exS3 :=
  Reachable.step exS2_reachable (Step.ui_checkout exS2 101 3)

/-! ### The claims -/

/-- Claim C1 (amended): at every reachable state the in-use booking-id set
contains the booking ids of all occupied rooms, and every in-use id is either
the id of an occupied room or the stale id 0; checking out an occupied room
removes its customer's booking id from the in-use set when that id is nonzero,
while a booking id of 0 is left in the set (the Python truthiness guard
`if room.cust and room.cust.booking_id:` skips the discard). -/
theorem booking_id_exclusivity {s : RegState} (hs : Reachable s) :
    (∀ b ∈ occupiedIds s.rooms, b ∈ s.booking_ids) ∧
    (∀ b ∈ s.booking_ids, b = 0 ∨ b ∈ occupiedIds s.rooms) ∧
    (∀ rno days idx room c, find_room_index s.rooms rno = some idx →
      s.rooms[idx]? = some room → room.cust = some c → ¬ room.status = 0 →
      (c.booking_id ≠ 0 → c.booking_id ∉ (checkout s rno days).1.booking_ids) ∧
      (c.booking_id = 0 → (checkout s rno days).1.booking_ids = s.booking_ids)) := by
  refine ⟨(inv_of_reachable hs).occ_sub, (inv_of_reachable hs).inuse_sub, ?_⟩
  intro rno days idx room c hfind hget hcust hst
  have hout : (checkout s rno days).1.booking_ids
      = if c.booking_id ≠ 0 then s.booking_ids.filter (fun b => b ≠ c.booking_id)
        else s.booking_ids := by
    simp [checkout, checkout_core, hfind, hget, hst, hcust]
  constructor
  · intro h0
    rw [hout, if_pos h0]
    intro hmem
    simp only [List.mem_filter, decide_eq_true_eq] at hmem
    exact hmem.2 rfl
  · intro h0
    rw [hout, if_neg (by simpa using h0)]

/-- Counterexample to claim C1 as stated: after adding room 101, checking in
booking id 0 and checking the room out again, id 0 is still in the in-use set
although no room is occupied, and a later check-in with id 0 is rejected —
so the in-use set does not equal the occupied rooms' booking ids, and id 0
never becomes attachable again. -/
theorem booking_id_zero_never_freed :
    (0 : Int) ∈ ((checkout (checkin exS1 101 0 "Bob" "a" "p" "d1" "d2" .absent).1 101 2).1).booking_ids ∧
    occupiedIds ((checkout (checkin exS1 101 0 "Bob" "a" "p" "d1" "d2" .absent).1 101 2).1).rooms = [] ∧
    (checkin (checkout (checkin exS1 101 0 "Bob" "a" "p" "d1" "d2" .absent).1 101 2).1
      101 0 "Eve" "a" "p" "d1" "d2" .absent).2 = .error .DuplicateBookingIdError := by
  decide

/-- Witness for claim C1: at the reachable state `exS2` (room 101 occupied by
booking 1) the theorem instantiates: id 1 is in use, and every in-use id is 0
or occupied — concretely the in-use list is `[1]`. -/
theorem booking_id_exclusivity_witness :
    (1 : Int) ∈ exS2.booking_ids ∧ ((1 : Int) = 0 ∨ (1 : Int) ∈ occupiedIds exS2.rooms) := by
  have h := booking_id_exclusivity exS2_reachable
  exact ⟨h.1 1 (by decide), h.2.1 1 (by decide)⟩

/-- Claim C2: at every reachable state, a room has an attached customer exactly
when its status is Occupied (= 1); all operations preserve this. -/
theorem occupancy_invariant {s : RegState} (hs : Reachable s) :
    ∀ r ∈ s.rooms, (r.cust.isSome ↔ r.status = 1) :=
  (inv_of_reachable hs).occ_iff

/-- Witness for claim C2 at the reachable state `exS2` and its occupied room. -/
theorem occupancy_invariant_witness :
    exRoom2.cust.isSome ↔ exRoom2.status = 1 :=
  occupancy_invariant exS2_reachable exRoom2 (by decide)

/-- The `advance` computed by checkout: the attached customer's
`payment_advance`, or 0 when no customer is attached. -/
def advanceOf : Option Customer → Rat
  | some c => c.payment_advance
  | none => 0

/-- Claim C3 (amended): with a fresh room number, the UI add-room path fails with
`InvalidAttributeError` (registry unchanged) whenever, after uppercasing,
ac ∉ {A,N} or comfort ∉ {S,N} or size ∉ {B,S}; on UI success the inserted room
carries valid enum attributes but an arbitrary (possibly negative) rent, which
is not validated; the JSON-API creation path performs no attribute validation
at all and inserts the room whenever the number is fresh. -/
theorem add_room_validation {s : RegState} {rno : Int} (acR cR zR : String) (rent : Int)
    (hfresh : find_room_index s.rooms rno = none) :
    (((pyUpper acR ≠ "A" ∧ pyUpper acR ≠ "N") ∨ (pyUpper cR ≠ "S" ∧ pyUpper cR ≠ "N") ∨
       (pyUpper zR ≠ "B" ∧ pyUpper zR ≠ "S")) →
      manage_rooms_add s rno acR cR zR rent = (s, .error .InvalidAttributeError)) ∧
    (∀ s' u, manage_rooms_add s rno acR cR zR rent = (s', .ok u) →
      ∃ room, s'.rooms = s.rooms ++ [room] ∧ room.room_number = rno ∧ room.rent = rent ∧
        (room.ac = "A" ∨ room.ac = "N") ∧ (room.comfort = "S" ∨ room.comfort = "N") ∧
        (room.size = "B" ∨ room.size = "S")) ∧
    (api_rooms_add s rno acR cR zR rent).2 = .ok () := by
  have hnotSome : ¬ (find_room_index s.rooms rno).isSome = true := by
    simp [hfresh]
  refine ⟨?_, ?_, ?_⟩
  · intro hbad
    simp [manage_rooms_add, hnotSome, hbad]
  · intro s' u h
    simp only [manage_rooms_add] at h
    rw [if_neg hnotSome] at h
    split at h
    · exact absurd (congrArg Prod.snd h) (by simp)
    · rename_i hvalid
      have h1 : ¬(pyUpper acR ≠ "A" ∧ pyUpper acR ≠ "N") := fun hb => hvalid (Or.inl hb)
      have h2 : ¬(pyUpper cR ≠ "S" ∧ pyUpper cR ≠ "N") := fun hb => hvalid (Or.inr (Or.inl hb))
      have h3 : ¬(pyUpper zR ≠ "B" ∧ pyUpper zR ≠ "S") := fun hb => hvalid (Or.inr (Or.inr hb))
      have hac : pyUpper acR = "A" ∨ pyUpper acR = "N" := by
        by_cases hA : pyUpper acR = "A"
        · exact Or.inl hA
        · exact Or.inr (by_contra fun hN => h1 ⟨hA, hN⟩)
      have hcomfort : pyUpper cR = "S" ∨ pyUpper cR = "N" := by
        by_cases hS : pyUpper cR = "S"
        · exact Or.inl hS
        · exact Or.inr (by_contra fun hN => h2 ⟨hS, hN⟩)
      have hsize : pyUpper zR = "B" ∨ pyUpper zR = "S" := by
        by_cases hB : pyUpper zR = "B"
        · exact Or.inl hB
        · exact Or.inr (by_contra fun hS => h3 ⟨hB, hS⟩)
      have hstate := congrArg Prod.fst h
      simp only at hstate
      refine ⟨{ room_number := rno, ac := pyUpper acR, comfort := pyUpper cR,
                size := pyUpper zR, rent := rent, status := 0, cust := none },
              ?_, rfl, rfl, hac, hcomfort, hsize⟩
      rw [← hstate]
  · simp [api_rooms_add, hnotSome]

/-- Counterexample to claim C3 as stated: the UI path accepts a negative rent
(no `rent < 0` check exists), inserting a room with rent −1, and the JSON-API
path accepts attribute letters outside the allowed sets. -/
theorem add_room_validation_cex :
    (manage_rooms_add initState 101 "N" "N" "S" (-1)).2 = .ok () ∧
    (manage_rooms_add initState 101 "N" "N" "S" (-1)).1.rooms
      = [{ room_number := 101, ac := "N", comfort := "N", size := "S", rent := -1,
           status := 0, cust := none }] ∧
    (api_rooms_add initState 102 "X" "Q" "Z" (-7)).2 = .ok () ∧
    (api_rooms_add initState 102 "X" "Q" "Z" (-7)).1.rooms
      = [{ room_number := 102, ac := "X", comfort := "Q", size := "Z", rent := -7,
           status := 0, cust := none }] := by
  decide

/-- Witness for claim C3 (amended) at a concrete bad input: lowercase/invalid
letters are rejected by the UI path and accepted by the API path. -/
theorem add_room_validation_witness :
    manage_rooms_add initState 104 "x" "n" "b" 5 = (initState, .error .InvalidAttributeError) ∧
    (api_rooms_add initState 104 "x" "n" "b" 5).2 = .ok () := by
  have h := @add_room_validation initState 104 "x" "n" "b" 5 rfl
  exact ⟨h.1 (by decide), h.2.2⟩

/-- Claim C4: for every occupied room and every integer `days` (negative included,
nothing is rejected), checkout succeeds and returns `bill = days * rent`,
`advance` = the attached customer's `payment_advance` (0 if no customer), and
`payable = bill - advance` with no clamping, so `payable < 0` exactly when the
advance exceeds the bill; the JSON checkout path computes the same result. -/
theorem checkout_billing {s : RegState} {rno : Int} (days : Int) {idx : Nat} {room : Room}
    (hfind : find_room_index s.rooms rno = some idx)
    (hget : s.rooms[idx]? = some room) (hocc : ¬ room.status = 0) :
    ∃ res, (checkout s rno days).2 = .ok res ∧
      api_checkout s rno days = checkout s rno days ∧
      res.room_number = rno ∧
      res.bill = days * room.rent ∧
      res.advance = advanceOf room.cust ∧
      res.payable = (res.bill : Rat) - res.advance ∧
      ((res.payable < 0) ↔ ((res.bill : Rat) < res.advance)) := by
  refine ⟨{ room_number := rno, bill := days * room.rent, advance := advanceOf room.cust,
            payable := ((days * room.rent : Int) : Rat) - advanceOf room.cust },
          ?_, rfl, rfl, rfl, rfl, rfl, sub_neg⟩
  cases hc : room.cust with
  | none => simp [checkout, checkout_core, hfind, hget, hocc, hc, advanceOf]
  | some c => simp [checkout, checkout_core, hfind, hget, hocc, hc, advanceOf]

/-- Witness for claim C4 at the reachable state `exS2` with negative days −2:
bill = −1000, advance = 200, payable = −1200 < 0. -/
theorem checkout_billing_witness :
    ∃ res, (checkout exS2 101 (-2)).2 = .ok res ∧
      api_checkout exS2 101 (-2) = checkout exS2 101 (-2) ∧
      res.room_number = 101 ∧
      res.bill = (-2) * exRoom2.rent ∧
      res.advance = advanceOf exRoom2.cust ∧
      res.payable = (res.bill : Rat) - res.advance ∧
      ((res.payable < 0) ↔ ((res.bill : Rat) < res.advance)) :=
  @checkout_billing exS2 101 (-2) 0 exRoom2 (by decide) (by decide) (by decide)

/-- Claim C5: at every reachable state no two rooms share a room number, and an
add with an already-present number fails with `DuplicateRoomError` leaving the
registry unchanged, on both the UI and the JSON paths. -/
theorem room_number_uniqueness {s : RegState} (hs : Reachable s) :
    (s.rooms.map Room.room_number).Nodup ∧
    (∀ rno a c z rent, (∃ r ∈ s.rooms, r.room_number = rno) →
      manage_rooms_add s rno a c z rent = (s, .error .DuplicateRoomError) ∧
      api_rooms_add s rno a c z rent = (s, .error .DuplicateRoomError)) := by
  refine ⟨(inv_of_reachable hs).nums_nodup, ?_⟩
  intro rno a c z rent hex
  have hsome : (find_room_index s.rooms rno).isSome := find_room_index_isSome_iff.mpr hex
  constructor
  · simp [manage_rooms_add, hsome]
  · simp [api_rooms_add, hsome]

/-- Witness for claim C5: adding room number 101 again on top of `exS1` fails on
both paths and leaves the registry untouched. -/
theorem room_number_uniqueness_witness :
    manage_rooms_add exS1 101 "A" "S" "B" 1 = (exS1, .error .DuplicateRoomError) ∧
    api_rooms_add exS1 101 "A" "S" "B" 1 = (exS1, .error .DuplicateRoomError) :=
  (room_number_uniqueness exS1_reachable).2 101 "A" "S" "B" 1
    ⟨exRoom1, by decide, by decide⟩

/-- Claim C6: the spec's round trip: starting from the empty registry, add room
101 (N,N,S,500), check in booking 1 with advance 200, check out after 3 days:
the checkout succeeds with bill 1500, advance 200, payable 1300; afterwards
room 101 is Available with no customer, booking id 1 is no longer in use, and
a later check-in with booking id 1 succeeds. -/
theorem checkin_checkout_round_trip :
    (manage_rooms_add initState 101 "N" "N" "S" 500).2 = .ok () ∧
    (checkin exS1 101 1 "Alice" "addr" "ph" "d1" "d2" (.given (some 200))).2 = .ok () ∧
    (checkout exS2 101 3).2
      = .ok { room_number := 101, bill := 1500, advance := 200, payable := 1300 } ∧
    exS3.rooms = [{ exRoom1 with status := 0, cust := none }] ∧
    exS3.booking_ids = [] ∧
    (checkin exS3 101 1 "Carol" "a2" "p2" "d3" "d4" .absent).2 = .ok () := by
  have h2 : exS2 = { rooms := [exRoom2], booking_ids := [1] } := by decide
  refine ⟨by decide, by decide, ?_, by decide, by decide, by decide⟩
  rw [h2]
  norm_num [checkout, checkout_core, find_room_index, exRoom2, exRoom1, exCust]

/-- Claim C7: no failure path of any operation mutates the registry: whenever an
operation reports an error the state it returns is the state it was given; and
checking the same room out twice in a row makes the second call fail with
`RoomNotOccupiedError` on both paths, with the state exactly as the first
checkout left it. -/
theorem failure_atomicity :
    (∀ s rno a c z rent e, (manage_rooms_add s rno a c z rent).2 = .error e →
      (manage_rooms_add s rno a c z rent).1 = s) ∧
    (∀ s rno a c z rent e, (api_rooms_add s rno a c z rent).2 = .error e →
      (api_rooms_add s rno a c z rent).1 = s) ∧
    (∀ s rno bid n a p f t adv e, (checkin s rno bid n a p f t adv).2 = .error e →
      (checkin s rno bid n a p f t adv).1 = s) ∧
    (∀ s rno bid n a p f t adv e, (api_checkin s rno bid n a p f t adv).2 = .error e →
      (api_checkin s rno bid n a p f t adv).1 = s) ∧
    (∀ s rno days e, (checkout s rno days).2 = .error e → (checkout s rno days).1 = s) ∧
    (∀ s rno days e, (api_checkout s rno days).2 = .error e → (api_checkout s rno days).1 = s) ∧
    (∀ s rno days s₁ res, checkout s rno days = (s₁, .ok res) →
      checkout s₁ rno days = (s₁, .error .RoomNotOccupiedError) ∧
      api_checkout s₁ rno days = (s₁, .error .RoomNotOccupiedError)) := by
  have hcore : ∀ s rno days e, (checkout_core s rno days).2 = .error e →
      (checkout_core s rno days).1 = s := by
    intro s rno days e h
    rcases hf : find_room_index s.rooms rno with _ | idx
    · simp [checkout_core, hf]
    · rcases hg : s.rooms[idx]? with _ | room
      · simp [checkout_core, hf, hg]
      · by_cases h0 : room.status = 0
        · simp [checkout_core, hf, hg, h0]
        · simp [checkout_core, hf, hg, h0] at h
  refine ⟨?_, ?_, ?_, ?_, hcore, hcore, ?_⟩
  · intro s rno a c z rent e h
    by_cases hdup : (find_room_index s.rooms rno).isSome
    · simp [manage_rooms_add, hdup]
    · by_cases hval : ((pyUpper a ≠ "A" ∧ pyUpper a ≠ "N") ∨ (pyUpper c ≠ "S" ∧ pyUpper c ≠ "N")
          ∨ (pyUpper z ≠ "B" ∧ pyUpper z ≠ "S"))
      · simp [manage_rooms_add, hdup, hval]
      · simp [manage_rooms_add, hdup, hval] at h
  · intro s rno a c z rent e h
    by_cases hdup : (find_room_index s.rooms rno).isSome
    · simp [api_rooms_add, hdup]
    · simp [api_rooms_add, hdup] at h
  · intro s rno bid n a p f t adv e h
    rcases hf : find_room_index s.rooms rno with _ | idx
    · simp [checkin, hf]
    · rcases hg : s.rooms[idx]? with _ | room
      · simp [checkin, hf, hg]
      · by_cases h1 : room.status = 1
        · simp [checkin, hf, hg, h1]
        · by_cases h2 : bid ∈ s.booking_ids
          · simp [checkin, hf, hg, h1, h2]
          · simp [checkin, hf, hg, h1, h2] at h
  · intro s rno bid n a p f t adv e h
    rcases hf : find_room_index s.rooms rno with _ | idx
    · simp [api_checkin, hf]
    · rcases hg : s.rooms[idx]? with _ | room
      · simp [api_checkin, hf, hg]
      · by_cases h1 : room.status = 1
        · simp [api_checkin, hf, hg, h1]
        · by_cases h2 : bid ∈ s.booking_ids
          · simp [api_checkin, hf, hg, h1, h2]
          · rcases ha : apiAdvance adv with e' | adv'
            · simp [api_checkin, hf, hg, h1, h2, ha]
            · simp [api_checkin, hf, hg, h1, h2, ha] at h
  · intro s rno days s₁ res h
    rcases hf : find_room_index s.rooms rno with _ | idx
    · simp [checkout, checkout_core, hf] at h
    · rcases hg : s.rooms[idx]? with _ | room
      · simp [checkout, checkout_core, hf, hg] at h
      · by_cases h0 : room.status = 0
        · simp [checkout, checkout_core, hf, hg, h0] at h
        · have hstate : (checkout s rno days).1 = s₁ := by rw [h]
          simp only [checkout, checkout_core, hf, hg, if_neg h0] at hstate
          obtain ⟨room0, hg0, hnum0⟩ := find_room_index_some hf
          have hroomeq : room0 = room := by
            rw [hg] at hg0
            exact (Option.some.inj hg0).symm
          subst hroomeq
          have hlt : idx < s.rooms.length := (List.getElem?_eq_some.mp hg).1
          have hfind1 : find_room_index (s.rooms.set idx { room0 with cust := none, status := 0 })
              rno = some idx := find_room_index_set hf hnum0
          have hget1 : (s.rooms.set idx { room0 with cust := none, status := 0 })[idx]?
              = some { room0 with cust := none, status := 0 } :=
            List.getElem?_set_eq_of_lt _ hlt
          subst hstate
          constructor
          · simp [checkout, checkout_core, hfind1, hget1]
          · simp [api_checkout, checkout_core, hfind1, hget1]

/-- Witness for claim C7: concretely, after the round-trip checkout (`exS3`),
a second checkout of room 101 fails with `RoomNotOccupiedError` and returns
the state unchanged. -/
theorem failure_atomicity_witness :
    (checkout exS3 101 3).1 = exS3 ∧ (checkout exS3 101 3).2 = .error .RoomNotOccupiedError :=
  ⟨failure_atomicity.2.2.2.2.1 exS3 101 3 .RoomNotOccupiedError (by decide), by decide⟩

/-- Claim C8: after a successful check-in with some booking id, a check-in of any
other available room with the same booking id fails with
`DuplicateBookingIdError` on both paths and leaves the registry (in particular
that room, still Available) unchanged. -/
theorem duplicate_booking_id_rejected {s s₁ : RegState} {rnoA bid : Int}
    {n a p f t : String} {adv : AdvanceInput}
    (hA : checkin s rnoA bid n a p f t adv = (s₁, .ok ()))
    {rnoB : Int} {idxB : Nat} {roomB : Room}
    (hfind : find_room_index s₁.rooms rnoB = some idxB)
    (hget : s₁.rooms[idxB]? = some roomB) (havail : ¬ roomB.status = 1)
    (n' a' p' f' t' : String) (adv' : AdvanceInput) :
    checkin s₁ rnoB bid n' a' p' f' t' adv' = (s₁, .error .DuplicateBookingIdError) ∧
    api_checkin s₁ rnoB bid n' a' p' f' t' adv' = (s₁, .error .DuplicateBookingIdError) := by
  have hmem : bid ∈ s₁.booking_ids := by
    rcases hf : find_room_index s.rooms rnoA with _ | idx
    · simp [checkin, hf] at hA
    · rcases hg : s.rooms[idx]? with _ | room
      · simp [checkin, hf, hg] at hA
      · by_cases h1 : room.status = 1
        · simp [checkin, hf, hg, h1] at hA
        · by_cases h2 : bid ∈ s.booking_ids
          · simp [checkin, hf, hg, h1, h2] at hA
          · have hstate := congrArg Prod.fst hA
            simp only [checkin, hf, hg, if_neg h1, if_neg h2] at hstate
            rw [← hstate]
            exact List.mem_insert_self _ _
  constructor
  · simp [checkin, hfind, hget, havail, hmem]
  · simp [api_checkin, hfind, hget, havail, hmem]

/-- Second example run: a second room 102 (A,S,B, rent 700) on top of `exS1`. -/
def exT1 : RegState := (manage_rooms_add exS1 102 "A" "S" "B" 700).1

/-- Next, check booking id 7 into room 101. -/
def exT2 : RegState := (checkin exT1 101 7 "Dan" "a" "p" "f" "t" .absent).1

/-- Room 102 as inserted by `exT1`. -/
def exRoomB : Room :=
  { room_number := 102, ac := "A", comfort := "S", size := "B", rent := 700,
    status := 0, cust := none }

/-- Witness for claim C8: booking id 7 is in use by room 101, so checking it into
the available room 102 fails on both paths. -/
theorem duplicate_booking_id_rejected_witness :
    checkin exT2 102 7 "Erin" "a" "p" "f" "t" .absent
      = (exT2, .error .DuplicateBookingIdError) ∧
    api_checkin exT2 102 7 "Erin" "a" "p" "f" "t" .absent
      = (exT2, .error .DuplicateBookingIdError) :=
  @duplicate_booking_id_rejected exT1 exT2 101 7 "Dan" "a" "p" "f" "t" AdvanceInput.absent
    (by decide) 102 1 exRoomB
    (by decide) (by decide) (by decide) "Erin" "a" "p" "f" "t" AdvanceInput.absent

/-- Claim C9 (amended): on successful check-in the stored `Customer` carries the
given fields — whitespace-stripped on the UI path, verbatim on the API path —
and the booking id; the advance defaults to 0.0 when absent or unparseable on
the UI path, but on the API path it defaults only when absent: an unparseable
advance there raises an uncaught error and the check-in does not happen. -/
theorem checkin_stores_fields {s : RegState} {rno bid : Int} {idx : Nat} {room : Room}
    (hfind : find_room_index s.rooms rno = some idx) (hget : s.rooms[idx]? = some room)
    (hst : ¬ room.status = 1) (hbid : bid ∉ s.booking_ids)
    (n a p f t : String) (adv : AdvanceInput) :
    (checkin s rno bid n a p f t adv).2 = .ok () ∧
    ((checkin s rno bid n a p f t adv).1).rooms[idx]?
      = some
          { room with
            status := 1,
            cust := some
              { name := pyStrip n, address := pyStrip a, phone := pyStrip p,
                from_date := pyStrip f, to_date := pyStrip t,
                payment_advance := uiAdvance adv, booking_id := bid } } ∧
    ((adv = .absent ∨ adv = .given none) → uiAdvance adv = 0) ∧
    (adv ≠ .given none →
      (api_checkin s rno bid n a p f t adv).2 = .ok () ∧
      ((api_checkin s rno bid n a p f t adv).1).rooms[idx]?
        = some
            { room with
              status := 1,
              cust := some
                { name := n, address := a, phone := p, from_date := f, to_date := t,
                  payment_advance := uiAdvance adv, booking_id := bid } }) ∧
    (adv = .given none →
      api_checkin s rno bid n a p f t adv = (s, .error .PyValueError)) := by
  have hlt : idx < s.rooms.length := (List.getElem?_eq_some.mp hget).1
  refine ⟨?_, ?_, ?_, ?_, ?_⟩
  · simp [checkin, hfind, hget, hst, hbid]
  · simp only [checkin, hfind, hget, if_neg hst, if_neg hbid]
    exact List.getElem?_set_eq_of_lt _ hlt
  · rintro (rfl | rfl) <;> rfl
  · intro hne
    have ha : apiAdvance adv = .ok (uiAdvance adv) := by
      cases adv with
      | absent => rfl
      | given q =>
        cases q with
        | none => exact absurd rfl hne
        | some v => rfl
    constructor
    · simp [api_checkin, hfind, hget, hst, hbid, ha]
    · simp only [api_checkin, hfind, hget, if_neg hst, if_neg hbid, ha]
      exact List.getElem?_set_eq_of_lt _ hlt
  · rintro rfl
    simp [api_checkin, hfind, hget, hst, hbid, apiAdvance]

/-- Counterexample to claim C9 as stated: on the JSON path an unparseable
`payment_advance` raises (it does not default to 0.0 — the spec-claimed
"no failure" is false there), and on the UI path the stored name is the
stripped `"Bob"`, not the given `" Bob "` (fields are not stored exactly as
given). -/
theorem checkin_advance_cex :
    (api_checkin exS1 101 5 "Bob" "" "" "" "" (.given none)).2 = .error .PyValueError ∧
    (api_checkin exS1 101 5 "Bob" "" "" "" "" (.given none)).1 = exS1 ∧
    ((checkin exS1 101 5 " Bob " "x" "y" "z" "w" .absent).1.rooms.map
      (fun r => r.cust.map Customer.name)) = [some "Bob"] := by
  decide

/-- Witness for claim C9 (amended): concrete check-ins into `exS1`. -/
theorem checkin_stores_fields_witness :
    pyStrip " Bob " = "Bob" ∧
    ((checkin exS1 101 9 " Bob " "ad" "ph" "f" "t" .absent).1).rooms[0]?
      = some
          { exRoom1 with
            status := 1,
            cust := some
              { name := pyStrip " Bob ", address := pyStrip "ad", phone := pyStrip "ph",
                from_date := pyStrip "f", to_date := pyStrip "t",
                payment_advance := uiAdvance .absent, booking_id := 9 } } ∧
    api_checkin exS1 101 9 "x" "y" "z" "u" "v" (.given none)
      = (exS1, .error .PyValueError) := by
  refine ⟨by decide, ?_, ?_⟩
  · exact (@checkin_stores_fields exS1 101 9 0 exRoom1
      (by decide) (by decide) (by decide) (by decide)
      " Bob " "ad" "ph" "f" "t" AdvanceInput.absent).2.1
  · exact (@checkin_stores_fields exS1 101 9 0 exRoom1
      (by decide) (by decide) (by decide) (by decide)
      "x" "y" "z" "u" "v" (AdvanceInput.given none)).2.2.2.2 rfl

theorem pyLower_eq_empty_iff (x : String) : pyLower x = "" ↔ x = "" := by
  obtain ⟨d⟩ := x
  constructor
  · intro h
    have hd : d.map Char.toLower = [] := congrArg String.data h
    have hnil : d = [] := List.map_eq_nil_iff.mp hd
    rw [hnil]
  · intro h
    rw [h]
    decide

/-- Claim C10 (amended): `api_search_customer` returns exactly the
(room_number, customer) pairs of occupied rooms whose customer's name equals
the query *stripped of surrounding whitespace*, comparing case-insensitively
(exact match, not substring); a query that is empty or only whitespace returns
the empty sequence even if some occupied room's customer name is empty. -/
theorem search_by_customer_name (s : RegState) (q : String) :
    (pyStrip q = "" → api_search_customer s q = []) ∧
    (∀ rno c, (rno, c) ∈ api_search_customer s q ↔
      (pyStrip q ≠ "" ∧ ∃ r ∈ s.rooms, r.room_number = rno ∧ r.status = 1 ∧
        r.cust = some c ∧ pyLower c.name = pyLower (pyStrip q))) := by
  have hempty : pyStrip q = "" → api_search_customer s q = [] := by
    intro h
    have hlow : pyLower (pyStrip q) = "" := (pyLower_eq_empty_iff _).mpr h
    simp [api_search_customer, hlow]
  refine ⟨hempty, ?_⟩
  intro rno c
  by_cases hq : pyStrip q = ""
  · rw [hempty hq]
    simp [hq]
  · have hlow : ¬ pyLower (pyStrip q) = "" := fun h => hq ((pyLower_eq_empty_iff _).mp h)
    rw [api_search_customer]
    simp only [if_neg hlow]
    rw [List.mem_filterMap]
    constructor
    · rintro ⟨r, hr, hfr⟩
      refine ⟨hq, r, hr, ?_⟩
      split at hfr
      · split at hfr
        · rename_i c0 hc
          split at hfr
          · rename_i h1 hn
            obtain ⟨hrno, hcc⟩ := Prod.mk.inj (Option.some.inj hfr)
            subst hcc
            exact ⟨hrno, by assumption, hc, hn⟩
          · exact absurd hfr (by simp)
        · exact absurd hfr (by simp)
      · exact absurd hfr (by simp)
    · rintro ⟨-, r, hr, hrno, h1, hc, hn⟩
      exact ⟨r, hr, by simp [h1, hc, hn, hrno]⟩

/-- The registry with customer "Bob" (API check-in, so the name is stored
verbatim) occupying room 101. -/
def c10_state : RegState := (api_checkin exS1 101 5 "Bob" "" "" "" "" .absent).1

/-- The customer stored by the check-in of `c10_state`. -/
def bobCust : Customer :=
  { name := "Bob", address := "", phone := "", from_date := "", to_date := "",
    payment_advance := 0, booking_id := 5 }

/-- Room 101 as occupied in `c10_state`. -/
def c10_room : Room := { exRoom1 with status := 1, cust := some bobCust }

/-- Counterexample to claim C10 as stated: the query is stripped before
comparison, so the query `"Bob "` (trailing blank) matches the stored name
`"Bob"` although the two differ even ignoring case — the result is not
restricted to names equal to the query ignoring case. -/
theorem search_query_not_stripped :
    api_search_customer c10_state "Bob " = [(101, bobCust)] ∧
    ¬ (pyLower bobCust.name = pyLower "Bob ") := by
  decide

/-- Witness for claim C10 (amended): a whitespace query returns nothing, and the
case-different query "bOb" finds room 101's customer "Bob". -/
theorem search_by_customer_name_witness :
    api_search_customer c10_state "  " = [] ∧
    (101, bobCust) ∈ api_search_customer c10_state "bOb" := by
  constructor
  · exact (search_by_customer_name c10_state "  ").1 (by decide)
  · exact ((search_by_customer_name c10_state "bOb").2 101 bobCust).mpr
      ⟨by decide, c10_room, by decide, by decide, by decide, by decide, by decide⟩

end Hotel
